import Mathlib

/-!
# GophKeeper server data plane — verification development

A shallow embedding of the GophKeeper server's data-plane core, translated
from the Go sources:

* `internal/storage/postgres.go` — the owner-scoped entry store
  (`CreateDataEntry`, `GetDataEntry`, `GetDataEntries`, `UpdateDataEntry`,
  `DeleteDataEntry`, `GetDataEntriesAfter`, `GetDeletedEntriesAfter`).
  The SQL tables `data_entries` and `deleted_entries` are modelled as lists
  of rows; each SQL statement becomes the corresponding pure list
  transformation.  A transaction is one Lean function application: either
  the fully-updated state is returned, or an error is returned and the
  caller keeps the old state (Postgres rollback).
* `internal/grpc` (server handlers) — `Login`, `CreateData`, `GetData`,
  `UpdateData`, `SyncData`, and the HTTP adapters in `http_handlers.go`.
* `internal/auth/auth.go` — JWT issuance, validation and refresh.  The
  behaviour of `github.com/golang-jwt/jwt/v5` claim validation (pinned
  signing method, `exp`/`nbf` checks during `ParseWithClaims`) is part of
  the embedding, since `ValidateToken` delegates to it.
* `internal/otp/otp.go` — backup-code generation (`GenerateBackupCodes`,
  `generateBackupCode`) over Go's `base32.StdEncoding.WithPadding(NoPadding)`.

UUIDs are modelled as naturals, timestamps as integers (a totally ordered
clock), byte strings as `List Nat`, and Go `error` results as
`Except String`.  Randomness (`uuid.New`, `crypto/rand`) is passed in as an
explicit argument, and `time.Now()` as an explicit `now` parameter.
-/

namespace GophKeeper

/-- 128-bit UUIDs (`github.com/google/uuid`) modelled as naturals; the code
only ever compares them for equality. -/
abbrev UUID := Nat

/-- Wall-clock timestamps (`time.Time`) modelled as integers; the code only
compares them and adds fixed durations (expressed in seconds here). -/
abbrev Time := Int

/-- `models.DataType` — the four entry kinds accepted by the server. -/
inductive DataType where
  | credentials
  | text
  | binary
  | card
deriving DecidableEq, Repr

/-- `models.DataEntry`, one row of the `data_entries` table
(`id, user_id, type, name, description, encrypted_data, metadata,
created_at, updated_at, version`). -/
structure DataEntry where
  id : UUID
  userID : UUID
  type : DataType
  name : String
  description : String
  encryptedData : List Nat
  metadata : String
  createdAt : Time
  updatedAt : Time
  version : Int
deriving DecidableEq, Repr

/-- One row of the `deleted_entries` table (`id, user_id, deleted_at`). -/
structure Tombstone where
  id : UUID
  userID : UUID
  deletedAt : Time
deriving DecidableEq, Repr

/-- The persistent state touched by the data plane: the `data_entries` and
`deleted_entries` tables, each as a list of rows. -/
structure Storage where
  entries : List DataEntry
  deleted : List Tombstone
deriving DecidableEq, Repr

/-- Go `error` results are returned through `Except String`; equality of
outcomes is decidable. -/
instance exceptDecidableEq {ε α : Type} [DecidableEq ε] [DecidableEq α] :
    DecidableEq (Except ε α)
  | .error e1, .error e2 =>
    if h : e1 = e2 then .isTrue (by rw [h]) else .isFalse (by simp [h])
  | .error _, .ok _ => .isFalse (by simp)
  | .ok _, .error _ => .isFalse (by simp)
  | .ok a1, .ok a2 =>
    if h : a1 = a2 then .isTrue (by rw [h]) else .isFalse (by simp [h])

/-- `PostgresStorage.CreateDataEntry`: `prepareNewDataEntry` assigns a fresh
id and `createdAt = updatedAt = now`, `version = 1`, then a single INSERT.
A unique violation (the `data_entries` primary key on `id`, or the
`unique_user_name UNIQUE(user_id, name)` constraint of the goose migration
shipped in the repository) is mapped by `handleExecError` to
`fmt.Errorf("%s: %w", "entry with this name already exists", err)` — note
the wrap: the driver's message is appended after a colon (abbreviated
here). -/
def createDataEntry (st : Storage) (newId : UUID) (now : Time)
    (userID : UUID) (type : DataType) (name description : String)
    (encryptedData : List Nat) (metadata : String) :
    Except String (Storage × DataEntry) :=
  let e : DataEntry :=
    { id := newId, userID := userID, type := type, name := name,
      description := description, encryptedData := encryptedData,
      metadata := metadata, createdAt := now, updatedAt := now, version := 1 }
  if st.entries.any (fun r => r.id = newId ∨ (r.userID = userID ∧ r.name = name)) then
    .error "entry with this name already exists: unique violation"
  else
    .ok ({ st with entries := st.entries ++ [e] }, e)

/-- `PostgresStorage.GetDataEntry`: `SELECT … WHERE id = $1 AND user_id = $2`;
`pgx.ErrNoRows` is mapped to `data entry not found`. -/
def getDataEntry (st : Storage) (userID entryID : UUID) : Except String DataEntry :=
  match st.entries.find? (fun e => e.id = entryID ∧ e.userID = userID) with
  | some e => .ok e
  | none => .error "data entry not found"

/-- `PostgresStorage.GetDataEntries`: all of the owner's rows, optionally
filtered by type, `ORDER BY created_at DESC`. -/
def getDataEntries (st : Storage) (userID : UUID) (dataType : Option DataType) :
    List DataEntry :=
  let rows : List DataEntry :=
    match dataType with
    | some t => st.entries.filter (fun e => e.userID = userID ∧ e.type = t)
    | none => st.entries.filter (fun e => e.userID = userID)
  rows.insertionSort (fun a b => b.createdAt ≤ a.createdAt)

/-- The WHERE clause of `UpdateDataEntry`'s UPDATE:
`id = $5 AND user_id = $6 AND version = $7` (the caller passes the
expected version in `entry.version`). -/
def matchesUpdate (entry r : DataEntry) : Bool :=
  r.id = entry.id ∧ r.userID = entry.userID ∧ r.version = entry.version

/-- The effect of `UpdateDataEntry`'s UPDATE on one matched row: the SET
clause rewrites `name, description, encrypted_data, metadata,
version = version + 1`, and the goose migration's
`update_data_entries_updated_at` BEFORE UPDATE trigger
(`NEW.updated_at = NOW()`) stamps the row with the statement's wall-clock
instant (`now`). -/
def updRow (now : Time) (entry r : DataEntry) : DataEntry :=
  { r with name := entry.name, description := entry.description,
           encryptedData := entry.encryptedData, metadata := entry.metadata,
           version := r.version + 1, updatedAt := now }

/-- `PostgresStorage.UpdateDataEntry`: one UPDATE predicated on
`(id, user_id, version)`; the BEFORE UPDATE trigger sets `updated_at` on
every rewritten row.  `RowsAffected() == 0` yields
`data entry not found or version mismatch`; a unique violation on
`(user_id, name)` while rewriting a matched row is wrapped by
`handleExecError` as for create.  On success the Go code also bumps the
in-memory object: `entry.Version++; entry.UpdatedAt = time.Now()`. -/
def updateDataEntry (st : Storage) (now : Time) (entry : DataEntry) :
    Except String (Storage × DataEntry) :=
  if (st.entries.filter (fun r => matchesUpdate entry r)).isEmpty then
    .error "data entry not found or version mismatch"
  else if st.entries.any (fun r => r.userID = entry.userID ∧ r.name = entry.name ∧ r.id ≠ entry.id) then
    .error "entry with this name already exists: unique violation"
  else
    .ok ({ st with entries :=
             st.entries.map (fun r => if matchesUpdate entry r then updRow now entry r else r) },
         { entry with version := entry.version + 1, updatedAt := now })

/-- `PostgresStorage.DeleteDataEntry`: one transaction that (1) DELETEs the
row matching `(id, user_id)` — `RowsAffected() == 0` aborts with
`data entry not found` — and (2) INSERTs the tombstone
`(id, user_id, NOW())` — a primary-key violation on `deleted_entries.id`
aborts with `failed to insert deleted entry`.  Commit or full rollback:
any error leaves the caller with the unchanged state. -/
def deleteDataEntry (st : Storage) (now : Time) (userID entryID : UUID) :
    Except String Storage :=
  if st.entries.any (fun e => e.id = entryID ∧ e.userID = userID) then
    if st.deleted.any (fun t => t.id = entryID) then
      .error "failed to insert deleted entry"
    else
      .ok { entries := st.entries.filter (fun e => ¬(e.id = entryID ∧ e.userID = userID)),
            deleted := st.deleted ++ [{ id := entryID, userID := userID, deletedAt := now }] }
  else
    .error "data entry not found"

/-- `PostgresStorage.GetDataEntriesAfter`:
`WHERE user_id = $1 AND updated_at > $2 ORDER BY updated_at ASC`. -/
def getDataEntriesAfter (st : Storage) (userID : UUID) (after : Time) :
    List DataEntry :=
  (st.entries.filter (fun e => e.userID = userID ∧ after < e.updatedAt)).insertionSort
    (fun a b => a.updatedAt ≤ b.updatedAt)

/-- `PostgresStorage.GetDeletedEntriesAfter`:
`SELECT id FROM deleted_entries WHERE user_id = $1 AND deleted_at > $2
ORDER BY deleted_at ASC`. -/
def getDeletedEntriesAfter (st : Storage) (userID : UUID) (after : Time) :
    List UUID :=
  ((st.deleted.filter (fun t => t.userID = userID ∧ after < t.deletedAt)).insertionSort
    (fun a b => a.deletedAt ≤ b.deletedAt)).map (·.id)

/-- The `SyncDataResponse` produced by the `SyncData` handler. -/
structure SyncResponse where
  entries : List DataEntry
  deletedIds : List UUID
  newCursor : Time
deriving DecidableEq, Repr

/-- The `SyncData` gRPC handler (post-authentication): two reads against the
store with the client's `lastSyncTime`, and `LastSyncTime := time.Now()` in
the response (`now` here). -/
def syncData (st : Storage) (userID : UUID) (lastSyncTime now : Time) :
    SyncResponse :=
  { entries := getDataEntriesAfter st userID lastSyncTime,
    deletedIds := getDeletedEntriesAfter st userID lastSyncTime,
    newCursor := now }

/-- The `ORDER BY updated_at ASC` comparator is total. -/
instance : IsTotal DataEntry (fun a b => a.updatedAt ≤ b.updatedAt) :=
  ⟨fun a b => Int.le_total a.updatedAt b.updatedAt⟩

/-- The `ORDER BY updated_at ASC` comparator is transitive. -/
instance : IsTrans DataEntry (fun a b => a.updatedAt ≤ b.updatedAt) :=
  ⟨fun _ _ _ hab hbc => le_trans hab hbc⟩

/-- The `ORDER BY deleted_at ASC` comparator is total. -/
instance : IsTotal Tombstone (fun a b => a.deletedAt ≤ b.deletedAt) :=
  ⟨fun a b => Int.le_total a.deletedAt b.deletedAt⟩

/-- The `ORDER BY deleted_at ASC` comparator is transitive. -/
instance : IsTrans Tombstone (fun a b => a.deletedAt ≤ b.deletedAt) :=
  ⟨fun _ _ _ hab hbc => le_trans hab hbc⟩

/-! ## Credential service (`internal/auth/auth.go`) -/

/-- `auth.Claims`: `user_id`, `username`, and the registered claims that the
code sets and that `jwt/v5` validates temporally (`nbf`, `exp`).  `iat` and
`iss` are carried by the token but not checked by the default validator, so
they are omitted. -/
structure Claims where
  userID : UUID
  username : String
  notBefore : Time
  expiresAt : Time
deriving DecidableEq, Repr

/-- A signed JWT as the validator sees it: the claims, the `alg` header, and
the key the HMAC signature verifies against (a token "signed with secret s"
is one whose signature verifies exactly under `s`). -/
structure Token where
  claims : Claims
  alg : String
  signedWith : String
deriving DecidableEq, Repr

/-- `Service.GenerateToken`: `expiresAt = now + 24h`, `nbf = iat = now`,
HS256, signed with the service secret.  Returns `(token, expiresAt)`. -/
def generateToken (secret : String) (now : Time) (userID : UUID)
    (username : String) : Token × Time :=
  let exp := now + 24 * 3600
  ({ claims := { userID := userID, username := username,
                 notBefore := now, expiresAt := exp },
     alg := "HS256", signedWith := secret }, exp)

/-- The key function's check `token.Method.(*jwt.SigningMethodHMAC)`: any
HMAC-family signing method is accepted (HS256, HS384, HS512). -/
def isHMACAlg (alg : String) : Bool :=
  alg = "HS256" ∨ alg = "HS384" ∨ alg = "HS512"

/-- `Service.ValidateToken`: `jwt.ParseWithClaims` with a key function that
rejects any non-HMAC `alg`, then checks the signature against the service
secret; `jwt/v5`'s default claims validation then rejects tokens whose
`exp` is not strictly in the future and tokens whose `nbf` is in the
future.  Every failure surfaces as a parse error (messages abbreviated). -/
def validateToken (secret : String) (now : Time) (tok : Token) :
    Except String Claims :=
  if ¬ isHMACAlg tok.alg then .error "failed to parse token: unexpected signing method"
  else if tok.signedWith ≠ secret then .error "failed to parse token: signature is invalid"
  else if tok.claims.expiresAt ≤ now then .error "failed to parse token: token is expired"
  else if now < tok.claims.notBefore then .error "failed to parse token: token is not valid yet"
  else .ok tok.claims

/-- `Service.RefreshToken`: validates the old token with `ValidateToken`,
then rejects it when `time.Since(claims.ExpiresAt) > time.Hour`, and
otherwise re-issues via `GenerateToken` with the same identity. -/
def refreshToken (secret : String) (now : Time) (tok : Token) :
    Except String (Token × Time) :=
  match validateToken secret now tok with
  | .error e => .error ("invalid token for refresh: " ++ e)
  | .ok claims =>
    if now - claims.expiresAt > 3600 then
      .error "token too old to refresh"
    else
      .ok (generateToken secret now claims.userID claims.username)

/-! ## gRPC handlers (`internal/grpc`, server part) and HTTP adapters -/

/-- The gRPC status codes the handlers use. -/
inductive GrpcCode where
  | ok
  | invalidArgument
  | unauthenticated
  | notFound
  | alreadyExists
  | failedPrecondition
  | internalErr
deriving DecidableEq, Repr

/-- Outcome of a handler: a value, or `status.Error(code, msg)`. -/
inductive HandlerResult (α : Type) where
  | ok (value : α)
  | err (code : GrpcCode) (msg : String)
deriving DecidableEq, Repr

/-- `users` table row (`models.User`). -/
structure User where
  id : UUID
  username : String
  passwordHash : String
deriving DecidableEq, Repr

/-- `PostgresStorage.GetUserByUsername`: `SELECT … WHERE username = $1`;
no-rows becomes `user not found`. -/
def getUserByUsername (users : List User) (username : String) :
    Except String User :=
  match users.find? (fun u => u.username = username) with
  | some u => .ok u
  | none => .error "user not found"

/-- The `Login` handler.  `check` is `auth.Service.CheckPassword`
(bcrypt comparison, an external primitive passed in abstractly): it returns
`true` iff the password matches the stored hash.  Both failure paths —
unknown username and wrong password — return
`status.Error(codes.Unauthenticated, "invalid credentials")`. -/
def login (check : String → String → Bool) (secret : String) (now : Time)
    (users : List User) (username password : String) :
    HandlerResult (Token × Time × User) :=
  if username = "" then .err .invalidArgument "username is required"
  else if password = "" then .err .invalidArgument "password is required"
  else
    match getUserByUsername users username with
    | .error _ => .err .unauthenticated "invalid credentials"
    | .ok user =>
      if ¬ check password user.passwordHash then
        .err .unauthenticated "invalid credentials"
      else
        let (tok, exp) := generateToken secret now user.id user.username
        .ok (tok, exp, user)

/-- `pb.CreateDataRequest` after proto decoding (the `type` is already the
converted `models.DataType`, `none` when `convertProtoDataType` returned
the empty string). -/
structure CreateDataReq where
  type : Option DataType
  name : String
  description : String
  encryptedData : List Nat
  metadata : String
deriving Repr

/-- The `CreateData` handler (post-authentication): validation, then
`storage.CreateDataEntry`.  The handler compares `err.Error()` against the
**unwrapped** string `entry with this name already exists`, but
`handleExecError` always wraps (`%s: %w`), so the comparison never
succeeds and the `AlreadyExists` branch is dead code: in the running
program a duplicate name surfaces as `Internal`, exactly as any other
storage failure. -/
def createData (st : Storage) (userID : UUID) (req : CreateDataReq)
    (newId : UUID) (now : Time) : HandlerResult (Storage × DataEntry) :=
  if req.name = "" then .err .invalidArgument "name is required"
  else if req.encryptedData = [] then .err .invalidArgument "data is required"
  else
    match req.type with
    | none => .err .invalidArgument "invalid data type"
    | some t =>
      match createDataEntry st newId now userID t req.name req.description
          req.encryptedData req.metadata with
      | .error e =>
        if e = "entry with this name already exists" then
          .err .alreadyExists "entry with this name already exists"
        else .err .internalErr "failed to create data entry"
      | .ok (st', entry) => .ok (st', entry)

/-- The `GetData` handler (post-authentication, id already parsed): any
storage error is returned as `NotFound, "data entry not found"`. -/
def getData (st : Storage) (userID entryID : UUID) : HandlerResult DataEntry :=
  match getDataEntry st userID entryID with
  | .error _ => .err .notFound "data entry not found"
  | .ok entry => .ok entry

/-- `pb.UpdateDataRequest` after decoding (id already parsed). -/
structure UpdateDataReq where
  id : UUID
  name : String
  description : String
  encryptedData : List Nat
  metadata : String
  version : Int
deriving Repr

/-- The `UpdateData` handler (post-authentication): fetches the existing
entry (`NotFound` on any fetch error), overwrites its fields and sets
`Version := req.Version`, then calls `storage.UpdateDataEntry`; **any**
storage error — including the version-mismatch one — is returned as
`Internal, "failed to update data entry"`. -/
def updateData (st : Storage) (userID : UUID) (req : UpdateDataReq)
    (now : Time) : HandlerResult (Storage × DataEntry) :=
  match getDataEntry st userID req.id with
  | .error _ => .err .notFound "data entry not found"
  | .ok entry =>
    match updateDataEntry st now { entry with
        name := req.name
        description := req.description
        encryptedData := req.encryptedData
        metadata := req.metadata
        version := req.version } with
    | .error _ => .err .internalErr "failed to update data entry"
    | .ok (st', ret) => .ok (st', ret)

/-- `HandleUpdateData` (HTTP adapter): encrypts the JSON `data` field with
the server's crypto service (`enc` is `cryptoService.EncryptLargeData`, an
RSA/AES hybrid whose key material comes from configuration), forwards to
the `UpdateData` handler, and maps **any** handler error to HTTP 500
(`Failed to update data`); success writes 200. -/
def handleUpdateDataStatus (enc : List Nat → List Nat) (st : Storage)
    (userID entryID : UUID) (name description : String) (data : List Nat)
    (metadata : String) (version : Int) (now : Time) : Nat :=
  let req : UpdateDataReq :=
    { id := entryID, name := name, description := description,
      encryptedData := enc data, metadata := metadata, version := version }
  match updateData st userID req now with
  | .err _ _ => 500
  | .ok _ => 200

/-- `HandleCreateData` (HTTP adapter): encrypts the JSON `data` field with
`cryptoService.EncryptLargeData` (`enc`) and forwards the **encryption
output** as the entry's `EncryptedData` to the `CreateData` handler. -/
def handleCreateData (enc : List Nat → List Nat) (st : Storage)
    (userID : UUID) (type : Option DataType) (name description : String)
    (data : List Nat) (metadata : String) (newId : UUID) (now : Time) :
    HandlerResult (Storage × DataEntry) :=
  createData st userID
    { type := type, name := name, description := description,
      encryptedData := enc data, metadata := metadata } newId now

/-- The part of the store a principal `P` can observe through the data
plane: the entry rows whose `user_id` is `P`. -/
def ownedEntries (P : UUID) (st : Storage) : List DataEntry :=
  st.entries.filter (fun e => e.userID = P)

/-- The tombstone rows whose `user_id` is `P`. -/
def ownedTombstones (P : UUID) (st : Storage) : List Tombstone :=
  st.deleted.filter (fun t => t.userID = P)

/-- A sequence of `UpdateData` handler calls by one principal, each with its
own request and wall-clock instant; stops at the first failure (`none`). -/
def runUpdates (userID : UUID) : Storage → List (UpdateDataReq × Time) → Option Storage
  | st, [] => some st
  | st, (req, now) :: rest =>
    match updateData st userID req now with
    | .err _ _ => none
    | .ok (st', _) => runUpdates userID st' rest

/-! ## TOTP backup codes (`internal/otp/otp.go`) -/

/-- The RFC 4648 standard base-32 alphabet used by Go's
`base32.StdEncoding`. -/
def base32Alphabet : List Char := "ABCDEFGHIJKLMNOPQRSTUVWXYZ234567".data

/-- One output character of base-32 encoding: the alphabet letter for a
5-bit group. -/
def b32char (n : Nat) : Char := base32Alphabet.getD (n % 32) 'A'

/-- Five random bytes as produced by `rand.Read` into a 5-byte slice. -/
structure RandBytes5 where
  b0 : Nat
  b1 : Nat
  b2 : Nat
  b3 : Nat
  b4 : Nat
deriving DecidableEq, Repr

/-- `base32.StdEncoding.WithPadding(base32.NoPadding).EncodeToString` on
exactly 5 input bytes: the 40 input bits are split big-endian into eight
5-bit groups — always exactly 8 output characters. -/
def base32Encode5 (b : RandBytes5) : List Char :=
  let n := ((((b.b0 % 256) * 256 + b.b1 % 256) * 256 + b.b2 % 256) * 256
            + b.b3 % 256) * 256 + b.b4 % 256
  [b32char (n / 2 ^ 35), b32char (n / 2 ^ 30), b32char (n / 2 ^ 25),
   b32char (n / 2 ^ 20), b32char (n / 2 ^ 15), b32char (n / 2 ^ 10),
   b32char (n / 2 ^ 5), b32char n]

/-- `Service.generateBackupCode`: 5 random bytes, base-32 (no padding),
right-padded with literal `'0'` characters to length 10
(`code + strings.Repeat("0", 10-len(code))`), presented as
`code[:5] + "-" + code[5:10]`. -/
def generateBackupCode (b : RandBytes5) : String :=
  let code := base32Encode5 b
  let padded := code ++ List.replicate (10 - code.length) '0'
  String.mk (padded.take 5) ++ "-" ++ String.mk ((padded.drop 5).take 5)

/-- `Service.GenerateBackupCodes(count)`: `count <= 0` falls back to 10;
one backup code per index, drawing 5 bytes from the random source for
each. -/
def generateBackupCodes (count : Int) (rand : Nat → RandBytes5) :
    List String :=
  let c : Nat := if count ≤ 0 then 10 else count.toNat
  (List.range c).map (fun i => generateBackupCode (rand i))

/-! ## Helper lemmas -/

/-- `find?` of a conjunction is `find?` on the rows passing the second
conjunct. -/
theorem find?_and_eq_find?_filter {α : Type} (p q : α → Bool) (l : List α) :
    l.find? (fun a => p a && q a) = (l.filter q).find? p := by
  induction l with
  | nil => rfl
  | cons a t ih =>
    by_cases hq : q a
    · by_cases hp : p a <;> simp [List.find?_cons, List.filter_cons, hq, hp, ih]
    · simp [List.find?_cons, List.filter_cons, Bool.eq_false_iff.mpr hq, ih]

/-- Mapping a function that fixes every row selected by `q` and never
changes whether `q` selects a row leaves the `q`-selection untouched. -/
theorem filter_map_eq_of_fix {α : Type} (l : List α) (g : α → α) (q : α → Bool)
    (hfix : ∀ a, q a = true → g a = a) (hpres : ∀ a, q (g a) = q a) :
    (l.map g).filter q = l.filter q := by
  induction l with
  | nil => rfl
  | cons a t ih =>
    by_cases h : q a
    · simp [List.filter_cons, hpres a, h, hfix a h, ih]
    · simp [List.filter_cons, hpres a, Bool.eq_false_iff.mpr h, ih]

/-- Every character emitted by the base-32 encoder is an alphabet letter. -/
theorem b32char_mem (m : Nat) : b32char m ∈ base32Alphabet := by
  unfold b32char
  have h : m % 32 < base32Alphabet.length := by
    have hlen : base32Alphabet.length = 32 := rfl
    rw [hlen]
    exact Nat.mod_lt _ (by norm_num)
  rw [List.getD_eq_getElem _ _ h]
  exact List.getElem_mem h

/-! ## C9 — backup-code generation -/

/-- C9, counterexample.  The claim says every returned code consists of 10
base-32 characters (as two dash-joined 5-character groups).  It does not:
base-32 of 5 random bytes is exactly 8 characters, and the code pads with
two literal `'0'` characters, which are not in the base-32 alphabet.  With
all-zero random bytes the generated code is `AAAAA-AAA00`, whose `'0'`
characters are not base-32. -/
theorem backupCodes_not_all_base32_counterexample :
    ¬ (∀ (count : Int) (rand : Nat → RandBytes5),
        ∀ code ∈ generateBackupCodes count rand,
        ∀ c ∈ code.data, c ≠ '-' → c ∈ base32Alphabet) := by
  intro h
  have h0 := h 1 (fun _ => ⟨0, 0, 0, 0, 0⟩) "AAAAA-AAA00" (by decide) '0'
    (by decide) (by decide)
  exact absurd h0 (by decide)

/-- C9, amended: `generateBackupCodes(n)` returns `n` codes (10 when
`n ≤ 0`); every code is 11 characters: positions 0–4 and 6–8 are base-32
alphabet characters, position 5 is the dash, and positions 9–10 are the
literal `'0'` padding (base-32 of the 5 random bytes yields only 8
characters, which the code right-pads to 10 before grouping 5-5). -/
theorem backupCodes_format_amended (count : Int) (rand : Nat → RandBytes5) :
    (generateBackupCodes count rand).length =
      (if count ≤ 0 then 10 else count.toNat) ∧
    ∀ code ∈ generateBackupCodes count rand,
      code.data.length = 11 ∧
      code.data.getD 5 ' ' = '-' ∧
      code.data.getD 9 ' ' = '0' ∧
      code.data.getD 10 ' ' = '0' ∧
      ∀ i : Nat, i < 11 → i ≠ 5 → i ≠ 9 → i ≠ 10 →
        code.data.getD i ' ' ∈ base32Alphabet := by
  constructor
  · simp [generateBackupCodes]
  · intro code hcode
    simp only [generateBackupCodes, List.mem_map] at hcode
    obtain ⟨i, _, heq⟩ := hcode
    subst heq
    refine ⟨rfl, rfl, rfl, rfl, ?_⟩
    intro j hj h5 h9 h10
    interval_cases j
    · exact b32char_mem _
    · exact b32char_mem _
    · exact b32char_mem _
    · exact b32char_mem _
    · exact b32char_mem _
    · exact absurd rfl h5
    · exact b32char_mem _
    · exact b32char_mem _
    · exact b32char_mem _
    · exact absurd rfl h9
    · exact absurd rfl h10

/-- C9 witness: the amended format theorem at `count = 2` and a concrete
random source. -/
theorem backupCodes_format_amended_witness :
    (generateBackupCodes 2 (fun _ => ⟨7, 255, 0, 31, 64⟩)).length = 2 ∧
    ∀ code ∈ generateBackupCodes 2 (fun _ => ⟨7, 255, 0, 31, 64⟩),
      code.data.length = 11 ∧
      code.data.getD 5 ' ' = '-' ∧
      code.data.getD 9 ' ' = '0' ∧
      code.data.getD 10 ' ' = '0' ∧
      ∀ i : Nat, i < 11 → i ≠ 5 → i ≠ 9 → i ≠ 10 →
        code.data.getD i ' ' ∈ base32Alphabet := by
  have h := backupCodes_format_amended 2 (fun _ => ⟨7, 255, 0, 31, 64⟩)
  exact ⟨by simpa using h.1, h.2⟩

/-! ## C6 — token refresh grace window -/

/-- C6: `RefreshToken` first calls `ValidateToken`, whose `jwt/v5` claims
validation rejects any token with `exp ≤ now`; hence **every** expired
token — including one expired for at most the one-hour grace window the
spec describes, as hypothesised here — is rejected, and the
`time.Since(exp) > time.Hour` grace check below it is unreachable for
expired tokens.  The spec's "validates without requiring expiresAt > now"
behaviour does not exist in the code. -/
theorem refreshToken_rejects_grace_window_bug
    (secret : String) (now : Time) (tok : Token)
    (halg : tok.alg = "HS256") (hsig : tok.signedWith = secret)
    (hnbf : tok.claims.notBefore ≤ now)
    (hexp : tok.claims.expiresAt ≤ now)
    (hgrace : now - tok.claims.expiresAt ≤ 3600) :
    refreshToken secret now tok =
      .error "invalid token for refresh: failed to parse token: token is expired" := by
  simp [refreshToken, validateToken, isHMACAlg, halg, hsig, hexp,
    not_lt.mpr hnbf]

/-- C6 witness: a well-signed token that expired 30 minutes ago is refused
refresh. -/
theorem refreshToken_rejects_grace_window_bug_witness :
    refreshToken "secret" 100000
      { claims := { userID := 1, username := "alice",
                    notBefore := 0, expiresAt := 98200 },
        alg := "HS256", signedWith := "secret" } =
      .error "invalid token for refresh: failed to parse token: token is expired" :=
  refreshToken_rejects_grace_window_bug "secret" 100000 _ rfl rfl
    (by norm_num) (by norm_num) (by norm_num)

/-! ## C10 — uniform login failure -/

/-- C10: a login with an unknown username and a login with a known username
but wrong password produce the identical
`Unauthenticated, "invalid credentials"` error — the responses are
indistinguishable, so the error does not reveal whether a username is
registered. -/
theorem login_uniform_invalid_credentials
    (check : String → String → Bool) (secret : String) (now : Time)
    (users : List User) (u1 p1 u2 p2 : String) (user2 : User)
    (h1u : u1 ≠ "") (h1p : p1 ≠ "") (h2u : u2 ≠ "") (h2p : p2 ≠ "")
    (hmiss : users.find? (fun u => u.username = u1) = none)
    (hfound : users.find? (fun u => u.username = u2) = some user2)
    (hwrong : check p2 user2.passwordHash = false) :
    login check secret now users u1 p1 = login check secret now users u2 p2 ∧
    login check secret now users u1 p1 =
      .err .unauthenticated "invalid credentials" := by
  have e1 : login check secret now users u1 p1 =
      .err .unauthenticated "invalid credentials" := by
    simp [login, getUserByUsername, h1u, h1p, hmiss]
  have e2 : login check secret now users u2 p2 =
      .err .unauthenticated "invalid credentials" := by
    simp [login, getUserByUsername, h2u, h2p, hfound, hwrong]
  exact ⟨e1.trans e2.symm, e1⟩

/-- C10 witness: concrete user table with one registered user. -/
theorem login_uniform_invalid_credentials_witness :
    login (fun p _ => p = "hunter22") "secret" 50
      [{ id := 3, username := "alice", passwordHash := "h" }] "bob" "x" =
    login (fun p _ => p = "hunter22") "secret" 50
      [{ id := 3, username := "alice", passwordHash := "h" }] "alice" "wrong" ∧
    login (fun p _ => p = "hunter22") "secret" 50
      [{ id := 3, username := "alice", passwordHash := "h" }] "bob" "x" =
      .err .unauthenticated "invalid credentials" :=
  login_uniform_invalid_credentials _ _ _ _ _ _ _ _
    { id := 3, username := "alice", passwordHash := "h" }
    (by decide) (by decide) (by decide) (by decide)
    (by decide) (by decide) (by decide)

/-- Shape of a successful `UpdateDataEntry`: rows matching
`(id, user_id, version)` are rewritten in place with `version + 1`, at
least one row matched (`RowsAffected > 0`), the tombstone table is
untouched, and the returned object's version is `expectedVersion + 1`. -/
theorem updateDataEntry_ok_shape (st : Storage) (now : Time) (e : DataEntry)
    (st' : Storage) (ret : DataEntry)
    (h : updateDataEntry st now e = .ok (st', ret)) :
    st'.entries = st.entries.map
      (fun r => if matchesUpdate e r then updRow now e r else r) ∧
    (∃ r ∈ st.entries, matchesUpdate e r = true) ∧
    ret.version = e.version + 1 := by
  unfold updateDataEntry at h
  split at h
  · exact absurd h (by simp)
  · rename_i hne
    split at h
    · exact absurd h (by simp)
    · simp only [Except.ok.injEq, Prod.mk.injEq] at h
      obtain ⟨h1, h2⟩ := h
      subst h1
      subst h2
      refine ⟨rfl, ?_, rfl⟩
      have hnn : st.entries.filter (fun r => matchesUpdate e r) ≠ [] := by
        intro hc
        exact hne (by rw [hc]; rfl)
      obtain ⟨r, hr⟩ := List.exists_mem_of_ne_nil _ hnn
      have hm := List.mem_filter.mp hr
      exact ⟨r, hm.1, hm.2⟩

/-! ## C3 — incremental sync (`changedSince`) -/

/-- C3: semantics of `SyncData`'s `changedSince`.
1. `newCursor` is the server wall clock at response preparation.
2. `entries` contains exactly the owner's live entries with
   `updatedAt > T_c`.
3. `entries` is ordered by `updatedAt` ascending.
4. `deletedIds` contains exactly the owner's tombstoned identifiers with
   `deleted-at > T_c`.
5. `deletedIds` is the id column of the owner's matching tombstones
   ordered by `deleted-at` ascending.
6. Under the `data_entries.id` primary key, every id appears at most once
   in `entries` — an entry updated several times since the cursor appears
   once (the row holds current state, not a log).
7. An entry successfully updated after the cursor appears in the next
   `changedSince` with its latest field values and `updatedAt` equal to
   the update instant (the migration's BEFORE UPDATE trigger stamps the
   stored row).
8. An id with no live row — in particular one created and then deleted
   since the cursor, by invariant I6 — never appears in `entries`; with
   part 4 it appears only in `deletedIds`. -/
theorem changedSince_exact :
    (∀ (st : Storage) (P : UUID) (c now : Time),
      (syncData st P c now).newCursor = now) ∧
    (∀ (st : Storage) (P : UUID) (c now : Time) (e : DataEntry),
      e ∈ (syncData st P c now).entries ↔
        e ∈ st.entries ∧ e.userID = P ∧ c < e.updatedAt) ∧
    (∀ (st : Storage) (P : UUID) (c now : Time),
      List.Sorted (fun a b : DataEntry => a.updatedAt ≤ b.updatedAt)
        (syncData st P c now).entries) ∧
    (∀ (st : Storage) (P : UUID) (c now : Time) (i : UUID),
      i ∈ (syncData st P c now).deletedIds ↔
        ∃ t ∈ st.deleted, t.id = i ∧ t.userID = P ∧ c < t.deletedAt) ∧
    (∀ (st : Storage) (P : UUID) (c now : Time),
      (syncData st P c now).deletedIds =
        ((st.deleted.filter
            (fun t => t.userID = P ∧ c < t.deletedAt)).insertionSort
          (fun a b => a.deletedAt ≤ b.deletedAt)).map (·.id) ∧
      List.Sorted (fun a b : Tombstone => a.deletedAt ≤ b.deletedAt)
        ((st.deleted.filter
            (fun t => t.userID = P ∧ c < t.deletedAt)).insertionSort
          (fun a b => a.deletedAt ≤ b.deletedAt))) ∧
    (∀ (st : Storage) (P : UUID) (c now : Time),
      (st.entries.map (·.id)).Nodup →
      ((syncData st P c now).entries.map (·.id)).Nodup) ∧
    (∀ (st : Storage) (P : UUID) (c now t : Time) (e : DataEntry)
        (st' : Storage) (ret : DataEntry),
      updateDataEntry st t e = .ok (st', ret) → e.userID = P → c < t →
      ∃ r ∈ (syncData st' P c now).entries,
        r.id = e.id ∧ r.name = e.name ∧ r.description = e.description ∧
        r.encryptedData = e.encryptedData ∧ r.metadata = e.metadata ∧
        r.updatedAt = t) ∧
    (∀ (st : Storage) (P : UUID) (c now : Time) (i : UUID),
      (∀ e ∈ st.entries, e.id ≠ i) →
      ∀ e ∈ (syncData st P c now).entries, e.id ≠ i) := by
  refine ⟨?_, ?_, ?_, ?_, ?_, ?_, ?_, ?_⟩
  · intro st P c now
    rfl
  · intro st P c now e
    show e ∈ getDataEntriesAfter st P c ↔ _
    unfold getDataEntriesAfter
    rw [(List.perm_insertionSort _ _).mem_iff, List.mem_filter]
    constructor
    · rintro ⟨h1, h2⟩
      have h3 := of_decide_eq_true h2
      exact ⟨h1, h3.1, h3.2⟩
    · rintro ⟨h1, h2, h3⟩
      exact ⟨h1, decide_eq_true ⟨h2, h3⟩⟩
  · intro st P c now
    exact List.sorted_insertionSort _ _
  · intro st P c now i
    show i ∈ getDeletedEntriesAfter st P c ↔ _
    unfold getDeletedEntriesAfter
    constructor
    · intro h
      obtain ⟨t, ht, hti⟩ := List.mem_map.mp h
      have hmem := List.mem_filter.mp ((List.perm_insertionSort _ _).mem_iff.mp ht)
      have hp := of_decide_eq_true hmem.2
      exact ⟨t, hmem.1, hti, hp.1, hp.2⟩
    · rintro ⟨t, ht, hti, h2, h3⟩
      refine List.mem_map.mpr ⟨t, ?_, hti⟩
      exact (List.perm_insertionSort _ _).mem_iff.mpr
        (List.mem_filter.mpr ⟨ht, decide_eq_true ⟨h2, h3⟩⟩)
  · intro st P c now
    exact ⟨rfl, List.sorted_insertionSort _ _⟩
  · intro st P c now h
    show ((getDataEntriesAfter st P c).map (·.id)).Nodup
    unfold getDataEntriesAfter
    have hs : List.Sublist
        (st.entries.filter (fun e => e.userID = P ∧ c < e.updatedAt))
        st.entries := List.filter_sublist _
    have hsub : ((st.entries.filter
        (fun e => e.userID = P ∧ c < e.updatedAt)).map (·.id)).Nodup :=
      h.sublist (hs.map (·.id))
    have hperm := List.perm_insertionSort
      (fun a b : DataEntry => a.updatedAt ≤ b.updatedAt)
      (st.entries.filter (fun e => e.userID = P ∧ c < e.updatedAt))
    exact ((hperm.map (·.id)).nodup_iff).mpr hsub
  · intro st P c now t e st' ret hupd huid hct
    obtain ⟨hmap, ⟨rm, hrm, hmm⟩, -⟩ := updateDataEntry_ok_shape st t e st' ret hupd
    have hmm' := hmm
    simp only [matchesUpdate, decide_eq_true_eq] at hmm'
    have hmemb : updRow t e rm ∈ st'.entries := by
      rw [hmap]
      exact List.mem_map.mpr ⟨rm, hrm, by rw [if_pos hmm]⟩
    have hin : updRow t e rm ∈ (syncData st' P c now).entries := by
      show updRow t e rm ∈ getDataEntriesAfter st' P c
      unfold getDataEntriesAfter
      refine (List.perm_insertionSort _ _).mem_iff.mpr
        (List.mem_filter.mpr ⟨hmemb, decide_eq_true ⟨?_, ?_⟩⟩)
      · show rm.userID = P
        rw [hmm'.2.1]
        exact huid
      · exact hct
    exact ⟨updRow t e rm, hin, hmm'.1, rfl, rfl, rfl, rfl, rfl⟩
  · intro st P c now i hno e he
    have hmem := List.mem_filter.mp
      ((List.perm_insertionSort _ _).mem_iff.mp he)
    exact hno e hmem.1

/-- C3 witness: an entry created at t=0 and updated at t=10 (cursor 5)
appears in the next sync with its latest state and `updatedAt = 10`; the
result mentions each id once; and a tombstoned id with no live row never
appears among the entries. -/
theorem changedSince_exact_witness :
    (∃ r ∈ (syncData
        { entries := [{ id := 1, userID := 7, type := DataType.text,
                        name := "b", description := "", encryptedData := [2],
                        metadata := "", createdAt := 0, updatedAt := 10,
                        version := 2 }],
          deleted := [] } 7 5 20).entries,
      r.id = 1 ∧ r.name = "b" ∧ r.description = "" ∧
      r.encryptedData = [2] ∧ r.metadata = "" ∧ r.updatedAt = 10) ∧
    ((syncData
        { entries := [{ id := 1, userID := 7, type := DataType.text,
                        name := "b", description := "", encryptedData := [2],
                        metadata := "", createdAt := 0, updatedAt := 10,
                        version := 2 }],
          deleted := [] } 7 5 20).entries.map (·.id)).Nodup ∧
    (∀ e ∈ (syncData
        { entries := [],
          deleted := [{ id := 4, userID := 7, deletedAt := 8 }] }
        7 5 20).entries, e.id ≠ 4) := by
  have h := changedSince_exact
  refine ⟨?_, ?_, ?_⟩
  · exact h.2.2.2.2.2.2.1
      { entries := [{ id := 1, userID := 7, type := DataType.text,
                      name := "a", description := "", encryptedData := [1],
                      metadata := "", createdAt := 0, updatedAt := 0,
                      version := 1 }],
        deleted := [] } 7 5 20 10
      { id := 1, userID := 7, type := DataType.text, name := "b",
        description := "", encryptedData := [2], metadata := "",
        createdAt := 0, updatedAt := 0, version := 1 }
      { entries := [{ id := 1, userID := 7, type := DataType.text,
                      name := "b", description := "", encryptedData := [2],
                      metadata := "", createdAt := 0, updatedAt := 10,
                      version := 2 }],
        deleted := [] }
      { id := 1, userID := 7, type := DataType.text, name := "b",
        description := "", encryptedData := [2], metadata := "",
        createdAt := 0, updatedAt := 10, version := 2 }
      (by decide) (by decide) (by decide)
  · exact h.2.2.2.2.2.1
      { entries := [{ id := 1, userID := 7, type := DataType.text,
                      name := "b", description := "", encryptedData := [2],
                      metadata := "", createdAt := 0, updatedAt := 10,
                      version := 2 }],
        deleted := [] } 7 5 20 (by decide)
  · exact h.2.2.2.2.2.2.2
      { entries := [],
        deleted := [{ id := 4, userID := 7, deletedAt := 8 }] }
      7 5 20 4 (by decide)

/-! ## C5 — wire mapping of a lost optimistic update -/

/-- C5, counterexample.  An entry exists for `(id, owner)` at version 2;
the client updates with `expectedVersion = 1`.  The claim says the wire
error is FailedPrecondition over RPC and 409 over HTTP, but the `UpdateData`
handler maps every storage failure to `Internal` and the HTTP adapter maps
every handler failure to 500. -/
theorem versionMismatch_wire_code_counterexample :
    updateData
      { entries := [{ id := 1, userID := 7, type := .text, name := "a",
                      description := "", encryptedData := [1], metadata := "",
                      createdAt := 0, updatedAt := 0, version := 2 }],
        deleted := [] } 7
      { id := 1, name := "b", description := "", encryptedData := [2],
        metadata := "", version := 1 } 10 =
      .err .internalErr "failed to update data entry" ∧
    (GrpcCode.internalErr ≠ GrpcCode.failedPrecondition) ∧
    handleUpdateDataStatus (fun l => l)
      { entries := [{ id := 1, userID := 7, type := .text, name := "a",
                      description := "", encryptedData := [1], metadata := "",
                      createdAt := 0, updatedAt := 0, version := 2 }],
        deleted := [] } 7 1 "b" "" [2] "" 1 10 = 500 ∧
    (500 : Nat) ≠ 409 := by
  decide

/-- C5, amended: an update that loses the optimistic-concurrency race (the
entry exists for `(id, owner)` but the stored version differs from the
client's `expectedVersion`) surfaces on the wire as `Internal` over RPC and
as HTTP 500 — the storage error `data entry not found or version mismatch`
is not distinguished by the handler. -/
theorem versionMismatch_maps_to_internal
    (st : Storage) (userID entryID : UUID) (name description : String)
    (data : List Nat) (metadata : String) (version : Int) (now : Time)
    (enc : List Nat → List Nat) (entry : DataEntry)
    (hget : getDataEntry st userID entryID = .ok entry)
    (hmm : ∀ r ∈ st.entries, r.id = entryID → r.userID = userID →
      r.version ≠ version) :
    updateData st userID
      { id := entryID, name := name, description := description,
        encryptedData := enc data, metadata := metadata, version := version }
      now = .err .internalErr "failed to update data entry" ∧
    handleUpdateDataStatus enc st userID entryID name description data
      metadata version now = 500 := by
  have hfind : st.entries.find?
      (fun e => decide (e.id = entryID) && decide (e.userID = userID)) =
      some entry := by
    cases h : st.entries.find?
        (fun e => decide (e.id = entryID) && decide (e.userID = userID)) with
    | none => simp [getDataEntry, h] at hget
    | some e =>
      simp [getDataEntry, h] at hget
      rw [hget]
  have hprops := List.find?_some hfind
  simp only [Bool.and_eq_true, decide_eq_true_eq] at hprops
  obtain ⟨hid, huid⟩ := hprops
  have hemp : ∀ (entry' : DataEntry), entry'.id = entryID →
      entry'.userID = userID → entry'.version = version →
      updateDataEntry st now entry' =
        .error "data entry not found or version mismatch" := by
    intro entry' h1 h2 h3
    have hnil : st.entries.filter (fun r => matchesUpdate entry' r) = [] := by
      rw [List.filter_eq_nil_iff]
      intro r hr
      simp only [matchesUpdate, decide_eq_true_eq]
      rintro ⟨hr1, hr2, hr3⟩
      exact hmm r hr (hr1.trans h1) (hr2.trans h2) (h3 ▸ hr3)
    simp [updateDataEntry, hnil]
  have hupd := hemp { entry with
    name := name
    description := description
    encryptedData := enc data
    metadata := metadata
    version := version } hid huid rfl
  constructor
  · simp [updateData, hget, hupd]
  · simp [handleUpdateDataStatus, updateData, hget, hupd]

/-- C5 witness: the amended mapping at the counterexample's input. -/
theorem versionMismatch_maps_to_internal_witness :
    updateData
      { entries := [{ id := 1, userID := 7, type := .text, name := "a",
                      description := "", encryptedData := [1], metadata := "",
                      createdAt := 0, updatedAt := 0, version := 2 }],
        deleted := [] } 7
      { id := 1, name := "b", description := "", encryptedData := [2],
        metadata := "", version := 1 } 10 =
      .err .internalErr "failed to update data entry" ∧
    handleUpdateDataStatus (fun l => l)
      { entries := [{ id := 1, userID := 7, type := .text, name := "a",
                      description := "", encryptedData := [1], metadata := "",
                      createdAt := 0, updatedAt := 0, version := 2 }],
        deleted := [] } 7 1 "b" "" [2] "" 1 10 = 500 :=
  versionMismatch_maps_to_internal
    { entries := [{ id := 1, userID := 7, type := .text, name := "a",
                    description := "", encryptedData := [1], metadata := "",
                    createdAt := 0, updatedAt := 0, version := 2 }],
      deleted := [] } 7 1 "b" "" [2] "" 1 10 (fun l => l)
    { id := 1, userID := 7, type := .text, name := "a", description := "",
      encryptedData := [1], metadata := "", createdAt := 0, updatedAt := 0,
      version := 2 }
    (by decide) (by decide)

/-! ## C8 — create/get round trip -/

/-- C8: a successful create assigns the fresh id, `version = 1` and
`createdAt = updatedAt = now`, and an immediately following `get(id)` by
the same principal returns exactly the created entry, field for field. -/
theorem create_get_roundtrip
    (st : Storage) (newId : UUID) (now : Time) (userID : UUID)
    (t : DataType) (name description : String) (data : List Nat) (md : String)
    (hfresh : ∀ e ∈ st.entries, e.id ≠ newId)
    (hname : ∀ e ∈ st.entries, ¬(e.userID = userID ∧ e.name = name)) :
    ∃ st' entry,
      createDataEntry st newId now userID t name description data md =
        .ok (st', entry) ∧
      entry = { id := newId, userID := userID, type := t, name := name,
                description := description, encryptedData := data,
                metadata := md, createdAt := now, updatedAt := now,
                version := 1 } ∧
      entry.version = 1 ∧ entry.createdAt = now ∧ entry.updatedAt = now ∧
      getDataEntry st' userID newId = .ok entry := by
  have hany : st.entries.any
      (fun r => r.id = newId ∨ (r.userID = userID ∧ r.name = name)) = false := by
    rw [List.any_eq_false]
    intro r hr
    simp only [decide_eq_true_eq, not_or, not_and]
    exact ⟨hfresh r hr, fun h1 h2 => hname r hr ⟨h1, h2⟩⟩
  refine ⟨{ st with entries := st.entries ++
      [{ id := newId, userID := userID, type := t, name := name,
         description := description, encryptedData := data, metadata := md,
         createdAt := now, updatedAt := now, version := 1 }] },
    { id := newId, userID := userID, type := t, name := name,
      description := description, encryptedData := data, metadata := md,
      createdAt := now, updatedAt := now, version := 1 },
    ?_, rfl, rfl, rfl, rfl, ?_⟩
  · simp only [createDataEntry, hany]
    simp
  · have hnone : st.entries.find?
        (fun x => decide (x.id = newId) && decide (x.userID = userID)) = none := by
      rw [List.find?_eq_none]
      intro x hx
      simp only [Bool.and_eq_true, decide_eq_true_eq, not_and]
      exact fun h1 _ => hfresh x hx h1
    simp [getDataEntry, List.find?_append, hnone, List.find?_cons, Option.or]

/-- C8 witness: creating into a store already holding an entry of another
owner, then reading it back. -/
theorem create_get_roundtrip_witness :
    ∃ st' entry,
      createDataEntry
        { entries := [{ id := 2, userID := 9, type := .card, name := "other",
                        description := "", encryptedData := [5], metadata := "",
                        createdAt := 0, updatedAt := 0, version := 3 }],
          deleted := [] } 1 42 7 .text "note-1" "d" [1, 2] "m" =
        .ok (st', entry) ∧
      entry = { id := 1, userID := 7, type := .text, name := "note-1",
                description := "d", encryptedData := [1, 2], metadata := "m",
                createdAt := 42, updatedAt := 42, version := 1 } ∧
      entry.version = 1 ∧ entry.createdAt = 42 ∧ entry.updatedAt = 42 ∧
      getDataEntry st' 7 1 = .ok entry :=
  create_get_roundtrip
    { entries := [{ id := 2, userID := 9, type := .card, name := "other",
                    description := "", encryptedData := [5], metadata := "",
                    createdAt := 0, updatedAt := 0, version := 3 }],
      deleted := [] } 1 42 7 .text "note-1" "d" [1, 2] "m"
    (by decide) (by decide)

/-! ## C2 — delete is atomic: row removal and tombstone insert together -/

/-- C2: `DeleteDataEntry` runs in one transaction, which this embedding
renders as a single state transition: either the call fails — `NotFound`
when no `(id, owner)` row exists — and the caller keeps the unchanged
state (rollback), or it returns the state with the row removed **and** the
tombstone `(id, owner, now)` inserted.  No state with a tombstone for a
still-live row, or with the row removed but the tombstone missing, is ever
produced: part 3 shows every success state has the row gone, the tombstone
present, and invariant I6 (a tombstoned id has no entry row) preserved. -/
theorem deleteDataEntry_atomic_tombstone
    (st : Storage) (now : Time) (userID entryID : UUID)
    (hnodup : (st.entries.map (·.id)).Nodup)
    (hI6 : ∀ tb ∈ st.deleted, ∀ e ∈ st.entries, e.id ≠ tb.id) :
    ((¬ ∃ e ∈ st.entries, e.id = entryID ∧ e.userID = userID) →
      deleteDataEntry st now userID entryID = .error "data entry not found") ∧
    ((∃ e ∈ st.entries, e.id = entryID ∧ e.userID = userID) →
      deleteDataEntry st now userID entryID =
        .ok { entries := st.entries.filter
                (fun e => ¬(e.id = entryID ∧ e.userID = userID)),
              deleted := st.deleted ++
                [{ id := entryID, userID := userID, deletedAt := now }] }) ∧
    (∀ st', deleteDataEntry st now userID entryID = .ok st' →
      (∀ e ∈ st'.entries, ¬(e.id = entryID ∧ e.userID = userID)) ∧
      { id := entryID, userID := userID, deletedAt := now } ∈ st'.deleted ∧
      ∀ tb ∈ st'.deleted, ∀ e ∈ st'.entries, e.id ≠ tb.id) := by
  refine ⟨?_, ?_, ?_⟩
  · intro hne
    have hanyf : st.entries.any (fun e => e.id = entryID ∧ e.userID = userID)
        = false := by
      rw [List.any_eq_false]
      intro x hx
      simp only [decide_eq_true_eq]
      exact fun hc => hne ⟨x, hx, hc⟩
    unfold deleteDataEntry
    rw [if_neg (by rw [hanyf]; simp)]
  · intro hex
    have hanyt : st.entries.any (fun e => e.id = entryID ∧ e.userID = userID)
        = true := by
      rw [List.any_eq_true]
      obtain ⟨e, he, hc⟩ := hex
      exact ⟨e, he, by simpa using hc⟩
    have htombf : st.deleted.any (fun t => t.id = entryID) = false := by
      rw [List.any_eq_false]
      intro tb htb
      simp only [decide_eq_true_eq]
      intro hid
      obtain ⟨e, he, hc, -⟩ := hex
      exact hI6 tb htb e he (hc.trans hid.symm)
    unfold deleteDataEntry
    rw [if_pos (by rw [hanyt]), if_neg (by rw [htombf]; simp)]
  · intro st' h
    unfold deleteDataEntry at h
    by_cases hany : st.entries.any
        (fun e => e.id = entryID ∧ e.userID = userID) = true
    · by_cases htomb : st.deleted.any (fun t => t.id = entryID) = true
      · rw [if_pos hany, if_pos htomb] at h
        exact absurd h (by simp)
      · rw [if_pos hany, if_neg htomb] at h
        simp only [Except.ok.injEq] at h
        subst h
        obtain ⟨e0, he0, he0m⟩ := List.any_eq_true.mp hany
        simp only [decide_eq_true_eq] at he0m
        refine ⟨?_, ?_, ?_⟩
        · intro e he
          exact of_decide_eq_true (List.mem_filter.mp he).2
        · simp
        · intro tb htb e he
          have hemem := List.mem_filter.mp he
          have hprop := of_decide_eq_true hemem.2
          rcases List.mem_append.mp htb with hold | hnew
          · exact hI6 tb hold e hemem.1
          · have htbeq := List.mem_singleton.mp hnew
            subst htbeq
            intro hide
            have heq : e = e0 :=
              List.inj_on_of_nodup_map hnodup hemem.1 he0
                (by rw [hide]; exact he0m.1.symm)
            exact hprop ⟨hide, by rw [heq]; exact he0m.2⟩
    · rw [if_neg hany] at h
      exact absurd h (by simp)

/-- C2 witness: deleting the only entry of owner 7 from a store also
holding another owner's entry and an old tombstone. -/
theorem deleteDataEntry_atomic_tombstone_witness :
    deleteDataEntry
      { entries := [{ id := 1, userID := 7, type := .text, name := "a",
                      description := "", encryptedData := [1], metadata := "",
                      createdAt := 0, updatedAt := 0, version := 1 },
                    { id := 2, userID := 9, type := .card, name := "b",
                      description := "", encryptedData := [2], metadata := "",
                      createdAt := 0, updatedAt := 0, version := 1 }],
        deleted := [{ id := 5, userID := 7, deletedAt := 1 }] } 3 7 1 =
      .ok { entries := [{ id := 2, userID := 9, type := .card, name := "b",
                          description := "", encryptedData := [2],
                          metadata := "", createdAt := 0, updatedAt := 0,
                          version := 1 }],
            deleted := [{ id := 5, userID := 7, deletedAt := 1 },
                        { id := 1, userID := 7, deletedAt := 3 }] } := by
  have h := (deleteDataEntry_atomic_tombstone
    { entries := [{ id := 1, userID := 7, type := .text, name := "a",
                    description := "", encryptedData := [1], metadata := "",
                    createdAt := 0, updatedAt := 0, version := 1 },
                  { id := 2, userID := 9, type := .card, name := "b",
                    description := "", encryptedData := [2], metadata := "",
                    createdAt := 0, updatedAt := 0, version := 1 }],
      deleted := [{ id := 5, userID := 7, deletedAt := 1 }] } 3 7 1
    (by decide) (by decide)).2.1 (by decide)
  exact h.trans (by decide)

/-! ## C7 — ciphertext opacity -/

/-- A successful `CreateDataEntry` appends exactly the entry built from its
arguments: id, timestamps and version are server-assigned, every other
field — the ciphertext included — is stored verbatim. -/
theorem createDataEntry_ok (st : Storage) (newId : UUID) (now : Time)
    (userID : UUID) (t : DataType) (n d : String) (data : List Nat) (md : String)
    (st' : Storage) (entry : DataEntry)
    (h : createDataEntry st newId now userID t n d data md = .ok (st', entry)) :
    entry = { id := newId, userID := userID, type := t, name := n,
              description := d, encryptedData := data, metadata := md,
              createdAt := now, updatedAt := now, version := 1 } ∧
    st' = { st with entries := st.entries ++ [entry] } := by
  unfold createDataEntry at h
  split at h
  · exact absurd h (by simp)
  · simp only [Except.ok.injEq, Prod.mk.injEq] at h
    obtain ⟨h1, h2⟩ := h
    subst h2
    exact ⟨rfl, h1.symm⟩

/-- A successful `CreateData` handler call persists the request's
`EncryptedData` bytes unchanged, owned by the caller, at version 1. -/
theorem createData_ok (st : Storage) (userID : UUID) (req : CreateDataReq)
    (newId : UUID) (now : Time) (st' : Storage) (entry : DataEntry)
    (h : createData st userID req newId now = .ok (st', entry)) :
    entry.encryptedData = req.encryptedData ∧ entry ∈ st'.entries ∧
    entry.userID = userID ∧ entry.version = 1 := by
  unfold createData at h
  split at h
  · exact absurd h (by simp)
  · split at h
    · exact absurd h (by simp)
    · split at h
      · exact absurd h (by simp)
      · rename_i t hty
        split at h
        · split at h
          · exact absurd h (by simp)
          · exact absurd h (by simp)
        · rename_i st2 e2 hcr
          simp only [HandlerResult.ok.injEq, Prod.mk.injEq] at h
          obtain ⟨h1, h2⟩ := h
          obtain ⟨hent, hst⟩ := createDataEntry_ok _ _ _ _ _ _ _ _ _ _ _ hcr
          subst h1 h2 hent hst
          refine ⟨rfl, ?_, rfl, rfl⟩
          simp

/-- C7, counterexample.  Over the HTTP transport the persisted ciphertext
is **not** the byte string supplied by the client: `HandleCreateData`
encrypts the request's `data` field with the server's crypto service
(`EncryptLargeData`, an RSA-OAEP/AES hybrid — never the identity; even its
output length differs from the input's) and persists the encryption
output.  Instantiating the crypto service with a function that prepends a
byte exhibits a run whose stored bytes `[0, 9]` differ from the supplied
`[9]`. -/
theorem http_ciphertext_not_verbatim_counterexample :
    ¬ (∀ (enc : List Nat → List Nat) (st : Storage) (userID : UUID)
        (t : Option DataType) (name description : String) (data : List Nat)
        (md : String) (newId : UUID) (now : Time) (st' : Storage)
        (entry : DataEntry),
        handleCreateData enc st userID t name description data md newId now =
          .ok (st', entry) →
        entry.encryptedData = data) := by
  intro h
  have hrun := h (fun l => 0 :: l) { entries := [], deleted := [] } 7
    (some .text) "n" "" [9] "" 1 5
    { entries := [{ id := 1, userID := 7, type := .text, name := "n",
                    description := "", encryptedData := [0, 9], metadata := "",
                    createdAt := 5, updatedAt := 5, version := 1 }],
      deleted := [] }
    { id := 1, userID := 7, type := .text, name := "n", description := "",
      encryptedData := [0, 9], metadata := "", createdAt := 5, updatedAt := 5,
      version := 1 }
    (by decide)
  exact absurd hrun (by decide)

/-- A successful `GetDataEntry` returns one of the stored rows itself — the
row with the requested id, owned by the caller. -/
theorem getDataEntry_ok_mem (st : Storage) (userID entryID : UUID)
    (e : DataEntry) (h : getDataEntry st userID entryID = .ok e) :
    e ∈ st.entries ∧ e.id = entryID ∧ e.userID = userID := by
  unfold getDataEntry at h
  split at h
  · rename_i e2 hfind
    simp only [Except.ok.injEq] at h
    subst h
    have hp := List.find?_some hfind
    simp only [decide_eq_true_eq] at hp
    exact ⟨List.mem_of_find?_eq_some hfind, hp⟩
  · exact absurd h (by simp)

/-- C7, amended: over RPC the server persists the client's ciphertext byte
for byte (part 1), and every read path — get, list, sync — returns stored
rows themselves, never a transformation of them (parts 2–4); but over HTTP
the persisted ciphertext is the output of the server's
`EncryptLargeData` on the client's `data` field, not the client's bytes
(part 5). -/
theorem ciphertext_opacity_amended :
    (∀ (st : Storage) (userID : UUID) (req : CreateDataReq) (newId : UUID)
        (now : Time) (st' : Storage) (entry : DataEntry),
      createData st userID req newId now = .ok (st', entry) →
      entry.encryptedData = req.encryptedData ∧ entry ∈ st'.entries) ∧
    (∀ (st : Storage) (userID entryID : UUID) (e : DataEntry),
      getData st userID entryID = .ok e → e ∈ st.entries) ∧
    (∀ (st : Storage) (userID : UUID) (dt : Option DataType) (e : DataEntry),
      e ∈ getDataEntries st userID dt → e ∈ st.entries) ∧
    (∀ (st : Storage) (userID : UUID) (c now : Time) (e : DataEntry),
      e ∈ (syncData st userID c now).entries → e ∈ st.entries) ∧
    (∀ (enc : List Nat → List Nat) (st : Storage) (userID : UUID)
        (t : Option DataType) (name description : String) (data : List Nat)
        (md : String) (newId : UUID) (now : Time) (st' : Storage)
        (entry : DataEntry),
      handleCreateData enc st userID t name description data md newId now =
        .ok (st', entry) →
      entry.encryptedData = enc data) := by
  refine ⟨?_, ?_, ?_, ?_, ?_⟩
  · intro st userID req newId now st' entry h
    have := createData_ok st userID req newId now st' entry h
    exact ⟨this.1, this.2.1⟩
  · intro st userID entryID e h
    unfold getData at h
    split at h
    · exact absurd h (by simp)
    · rename_i e2 hok
      simp only [HandlerResult.ok.injEq] at h
      subst h
      exact (getDataEntry_ok_mem _ _ _ _ hok).1
  · intro st userID dt e h
    unfold getDataEntries at h
    have hmem := (List.perm_insertionSort _ _).mem_iff.mp h
    cases dt with
    | none => exact (List.mem_filter.mp hmem).1
    | some t => exact (List.mem_filter.mp hmem).1
  · intro st userID c now e h
    have hmem := (List.perm_insertionSort _ _).mem_iff.mp h
    exact (List.mem_filter.mp hmem).1
  · intro enc st userID t name description data md newId now st' entry h
    unfold handleCreateData at h
    exact (createData_ok _ _ _ _ _ _ _ h).1

/-- C7 witness: the amended statement applied at concrete runs over both
transports (same payload `[9]`; RPC persists `[9]`, HTTP with a
byte-prepending crypto service persists `[0, 9]`). -/
theorem ciphertext_opacity_amended_witness :
    ({ id := 1, userID := 7, type := DataType.text, name := "n",
       description := "", encryptedData := [9], metadata := "",
       createdAt := 5, updatedAt := 5, version := 1 } : DataEntry).encryptedData
      = [9] ∧
    ({ id := 1, userID := 7, type := DataType.text, name := "n",
       description := "", encryptedData := [0, 9], metadata := "",
       createdAt := 5, updatedAt := 5, version := 1 } : DataEntry).encryptedData
      = (fun l => 0 :: l) [9] := by
  have h := ciphertext_opacity_amended
  refine ⟨(h.1 { entries := [], deleted := [] } 7
      { type := some .text, name := "n", description := "",
        encryptedData := [9], metadata := "" } 1 5
      { entries := [{ id := 1, userID := 7, type := .text, name := "n",
                      description := "", encryptedData := [9], metadata := "",
                      createdAt := 5, updatedAt := 5, version := 1 }],
        deleted := [] }
      { id := 1, userID := 7, type := .text, name := "n", description := "",
        encryptedData := [9], metadata := "", createdAt := 5, updatedAt := 5,
        version := 1 } (by decide)).1, ?_⟩
  exact h.2.2.2.2 (fun l => 0 :: l) { entries := [], deleted := [] } 7
    (some .text) "n" "" [9] "" 1 5
    { entries := [{ id := 1, userID := 7, type := .text, name := "n",
                    description := "", encryptedData := [0, 9], metadata := "",
                    createdAt := 5, updatedAt := 5, version := 1 }],
      deleted := [] }
    { id := 1, userID := 7, type := .text, name := "n", description := "",
      encryptedData := [0, 9], metadata := "", createdAt := 5, updatedAt := 5,
      version := 1 } (by decide)

/-! ## C4 — cross-owner isolation -/

/-- Rows dropped by an inner filter that implies the outer one do not
affect the outer filter. -/
theorem filter_filter_eq_of_imp {α : Type} (l : List α) (w q : α → Bool)
    (h : ∀ a, q a = true → w a = true) :
    (l.filter w).filter q = l.filter q := by
  induction l with
  | nil => rfl
  | cons a t ih =>
    by_cases hq : q a
    · simp [List.filter_cons, h a hq, hq, ih]
    · by_cases hw : w a <;>
        simp [List.filter_cons, hw, Bool.eq_false_iff.mpr hq, ih]

/-- `GetDataEntry` reads only the caller's slice of the table. -/
theorem getDataEntry_eq_view (st : Storage) (P entryID : UUID) :
    getDataEntry st P entryID =
      match (ownedEntries P st).find? (fun e => e.id = entryID) with
      | some e => .ok e
      | none => .error "data entry not found" := by
  unfold getDataEntry
  have hd : (fun e : DataEntry => decide (e.id = entryID ∧ e.userID = P)) =
      (fun e => decide (e.id = entryID) && decide (e.userID = P)) := by
    funext e
    exact Bool.decide_and _ _
  rw [hd, find?_and_eq_find?_filter]
  rfl

/-- `GetDataEntries` reads only the caller's slice of the table. -/
theorem getDataEntries_eq_view (st : Storage) (P : UUID) (dt : Option DataType) :
    getDataEntries st P dt =
      (match dt with
        | some t => (ownedEntries P st).filter (fun e : DataEntry => e.type = t)
        | none => ownedEntries P st).insertionSort
        (fun a b => b.createdAt ≤ a.createdAt) := by
  cases dt with
  | none => rfl
  | some t =>
    have hl : st.entries.filter (fun e => e.userID = P ∧ e.type = t) =
        (ownedEntries P st).filter (fun e => e.type = t) := by
      unfold ownedEntries
      rw [List.filter_filter]
      refine List.filter_congr ?_
      intro e he
      simp [Bool.decide_and, Bool.and_comm]
    show (st.entries.filter
        (fun e => e.userID = P ∧ e.type = t)).insertionSort
        (fun a b => b.createdAt ≤ a.createdAt) =
      ((ownedEntries P st).filter (fun e : DataEntry => e.type = t)).insertionSort
        (fun a b => b.createdAt ≤ a.createdAt)
    rw [hl]

/-- `GetDataEntriesAfter` reads only the caller's slice of the table. -/
theorem getDataEntriesAfter_eq_view (st : Storage) (P : UUID) (after : Time) :
    getDataEntriesAfter st P after =
      ((ownedEntries P st).filter (fun e => after < e.updatedAt)).insertionSort
        (fun a b => a.updatedAt ≤ b.updatedAt) := by
  have hl : st.entries.filter (fun e => e.userID = P ∧ after < e.updatedAt) =
      (ownedEntries P st).filter (fun e => after < e.updatedAt) := by
    unfold ownedEntries
    rw [List.filter_filter]
    refine List.filter_congr ?_
    intro e he
    simp [Bool.decide_and, Bool.and_comm]
  unfold getDataEntriesAfter
  rw [hl]

/-- `GetDeletedEntriesAfter` reads only the caller's slice of the
tombstone table. -/
theorem getDeletedEntriesAfter_eq_view (st : Storage) (P : UUID) (after : Time) :
    getDeletedEntriesAfter st P after =
      (((ownedTombstones P st).filter
          (fun t => after < t.deletedAt)).insertionSort
        (fun a b => a.deletedAt ≤ b.deletedAt)).map (·.id) := by
  have hl : st.deleted.filter (fun t => t.userID = P ∧ after < t.deletedAt) =
      (ownedTombstones P st).filter (fun t => after < t.deletedAt) := by
    unfold ownedTombstones
    rw [List.filter_filter]
    refine List.filter_congr ?_
    intro t ht
    simp [Bool.decide_and, Bool.and_comm]
  unfold getDeletedEntriesAfter
  rw [hl]

/-- C4: cross-owner isolation.
1. A `get` for an id with no row owned by the caller — whether the id is
   absent or the row belongs to another principal — yields the identical
   `data entry not found` outcome.
2. A successful `get` only ever returns one of the caller's own rows.
3. `list` only ever returns the caller's own rows.
4. Two stores agreeing on principal `P`'s rows are indistinguishable to
   `P` through `get`, `list` and (agreeing also on `P`'s tombstones) `sync`.
5. A successful update rewrites only rows owned by the caller; other
   owners' rows and all tombstones are untouched.
6. An update against an id with no row owned by the caller fails with the
   same error as for an absent id.
7. A successful delete removes only the caller's row and adds only a
   tombstone owned by the caller; other owners' rows and tombstones are
   untouched.
8. A delete against an id with no row owned by the caller fails with the
   same `data entry not found` as for an absent id. -/
theorem crossOwner_isolation :
    (∀ (st : Storage) (P entryID : UUID),
      (∀ e ∈ st.entries, e.id = entryID → e.userID ≠ P) →
      getDataEntry st P entryID = .error "data entry not found") ∧
    (∀ (st : Storage) (P entryID : UUID) (e : DataEntry),
      getDataEntry st P entryID = .ok e → e.userID = P ∧ e ∈ st.entries) ∧
    (∀ (st : Storage) (P : UUID) (dt : Option DataType) (e : DataEntry),
      e ∈ getDataEntries st P dt → e.userID = P) ∧
    (∀ (st1 st2 : Storage) (P : UUID),
      ownedEntries P st1 = ownedEntries P st2 →
      (∀ entryID, getDataEntry st1 P entryID = getDataEntry st2 P entryID) ∧
      (∀ dt, getDataEntries st1 P dt = getDataEntries st2 P dt) ∧
      (ownedTombstones P st1 = ownedTombstones P st2 →
        ∀ c now, syncData st1 P c now = syncData st2 P c now)) ∧
    (∀ (st : Storage) (now : Time) (e : DataEntry) (st' : Storage)
        (ret : DataEntry),
      updateDataEntry st now e = .ok (st', ret) →
      st'.entries.filter (fun r => r.userID ≠ e.userID) =
        st.entries.filter (fun r => r.userID ≠ e.userID) ∧
      st'.deleted = st.deleted) ∧
    (∀ (st : Storage) (now : Time) (e : DataEntry),
      (∀ r ∈ st.entries, r.id = e.id → r.userID ≠ e.userID) →
      updateDataEntry st now e =
        .error "data entry not found or version mismatch") ∧
    (∀ (st : Storage) (now : Time) (P entryID : UUID) (st' : Storage),
      deleteDataEntry st now P entryID = .ok st' →
      st'.entries.filter (fun r => r.userID ≠ P) =
        st.entries.filter (fun r => r.userID ≠ P) ∧
      st'.deleted.filter (fun t => t.userID ≠ P) =
        st.deleted.filter (fun t => t.userID ≠ P)) ∧
    (∀ (st : Storage) (now : Time) (P entryID : UUID),
      (∀ r ∈ st.entries, r.id = entryID → r.userID ≠ P) →
      deleteDataEntry st now P entryID = .error "data entry not found") := by
  refine ⟨?_, ?_, ?_, ?_, ?_, ?_, ?_, ?_⟩
  · intro st P entryID hno
    unfold getDataEntry
    have hnone : st.entries.find?
        (fun e => e.id = entryID ∧ e.userID = P) = none := by
      rw [List.find?_eq_none]
      intro x hx
      simp only [decide_eq_true_eq, not_and]
      exact hno x hx
    rw [hnone]
  · intro st P entryID e h
    have := getDataEntry_ok_mem st P entryID e h
    exact ⟨this.2.2, this.1⟩
  · intro st P dt e h
    unfold getDataEntries at h
    have hmem := (List.perm_insertionSort _ _).mem_iff.mp h
    cases dt with
    | none =>
      have := (List.mem_filter.mp hmem).2
      exact of_decide_eq_true this
    | some t =>
      have := (List.mem_filter.mp hmem).2
      exact (of_decide_eq_true this).1
  · intro st1 st2 P hview
    refine ⟨?_, ?_, ?_⟩
    · intro entryID
      rw [getDataEntry_eq_view, getDataEntry_eq_view, hview]
    · intro dt
      rw [getDataEntries_eq_view, getDataEntries_eq_view, hview]
    · intro htview c now
      unfold syncData
      rw [getDataEntriesAfter_eq_view, getDataEntriesAfter_eq_view,
        getDeletedEntriesAfter_eq_view, getDeletedEntriesAfter_eq_view,
        hview, htview]
  · intro st now e st' ret h
    unfold updateDataEntry at h
    split at h
    · exact absurd h (by simp)
    · split at h
      · exact absurd h (by simp)
      · simp only [Except.ok.injEq, Prod.mk.injEq] at h
        obtain ⟨h1, -⟩ := h
        subst h1
        refine ⟨?_, rfl⟩
        refine filter_map_eq_of_fix _ _ _ ?_ ?_
        · intro a ha
          have hne : a.userID ≠ e.userID := by simpa using ha
          rw [if_neg]
          simp only [matchesUpdate, decide_eq_true_eq]
          rintro ⟨-, h2, -⟩
          exact hne h2
        · intro a
          by_cases hm : matchesUpdate e a = true
          · rw [if_pos hm]
            rfl
          · rw [if_neg hm]
  · intro st now e hno
    have hnil : st.entries.filter (fun r => matchesUpdate e r) = [] := by
      rw [List.filter_eq_nil_iff]
      intro r hr
      simp only [matchesUpdate, decide_eq_true_eq]
      rintro ⟨h1, h2, -⟩
      exact hno r hr h1 h2
    unfold updateDataEntry
    rw [if_pos (by rw [hnil]; rfl)]
  · intro st now P entryID st' h
    unfold deleteDataEntry at h
    split at h
    · split at h
      · exact absurd h (by simp)
      · simp only [Except.ok.injEq] at h
        subst h
        constructor
        · refine filter_filter_eq_of_imp _ _ _ ?_
          intro a ha
          have hne : a.userID ≠ P := of_decide_eq_true ha
          exact decide_eq_true (fun hc => hne hc.2)
        · rw [List.filter_append]
          have hone : ([{ id := entryID, userID := P, deletedAt := now }] :
              List Tombstone).filter (fun t => t.userID ≠ P) = [] := by
            simp [List.filter_cons]
          rw [hone, List.append_nil]
    · exact absurd h (by simp)
  · intro st now P entryID hno
    have hanyf : st.entries.any (fun e => e.id = entryID ∧ e.userID = P)
        = false := by
      rw [List.any_eq_false]
      intro x hx
      simp only [decide_eq_true_eq, not_and]
      exact hno x hx
    unfold deleteDataEntry
    rw [if_neg (by rw [hanyf]; simp)]

/-- C4 witness: principal 5 gets the identical NotFound for another
owner's entry (id 1) and for an absent id (99), and two stores that differ
only in principal 7's entries are indistinguishable to principal 5. -/
theorem crossOwner_isolation_witness :
    getDataEntry
      { entries := [{ id := 1, userID := 7, type := .text, name := "a",
                      description := "", encryptedData := [1], metadata := "",
                      createdAt := 0, updatedAt := 0, version := 1 }],
        deleted := [] } 5 1 = .error "data entry not found" ∧
    getDataEntry
      { entries := [{ id := 1, userID := 7, type := .text, name := "a",
                      description := "", encryptedData := [1], metadata := "",
                      createdAt := 0, updatedAt := 0, version := 1 }],
        deleted := [] } 5 99 = .error "data entry not found" ∧
    getDataEntry
      { entries := [{ id := 1, userID := 7, type := .text, name := "a",
                      description := "", encryptedData := [1], metadata := "",
                      createdAt := 0, updatedAt := 0, version := 1 }],
        deleted := [] } 5 1 =
      getDataEntry
        { entries := [{ id := 2, userID := 9, type := .card, name := "zz",
                        description := "", encryptedData := [3, 4],
                        metadata := "", createdAt := 8, updatedAt := 8,
                        version := 4 }],
          deleted := [] } 5 1 := by
  have h := crossOwner_isolation
  refine ⟨h.1 _ 5 1 (by decide), h.1 _ 5 99 (by decide), ?_⟩
  exact (h.2.2.2.1
    { entries := [{ id := 1, userID := 7, type := .text, name := "a",
                    description := "", encryptedData := [1], metadata := "",
                    createdAt := 0, updatedAt := 0, version := 1 }],
      deleted := [] }
    { entries := [{ id := 2, userID := 9, type := .card, name := "zz",
                    description := "", encryptedData := [3, 4], metadata := "",
                    createdAt := 8, updatedAt := 8, version := 4 }],
      deleted := [] } 5 (by decide)).1 1

/-! ## C1 — optimistic-concurrency version arithmetic -/

/-- Rewriting rows in place preserves the id column. -/
theorem map_upd_ids (now : Time) (e : DataEntry) (l : List DataEntry) :
    (l.map (fun r => if matchesUpdate e r then updRow now e r else r)).map (·.id)
      = l.map (·.id) := by
  rw [List.map_map]
  refine List.map_congr_left ?_
  intro a ha
  by_cases hm : matchesUpdate e a = true
  · simp [Function.comp, hm, updRow]
  · simp [Function.comp, hm]

/-- One successful `UpdateData` handler call by the owner: the ids stay
unchanged (so the primary key stays duplicate-free), and the owner's row
for the updated id moves from version `v` to version `v + 1`. -/
theorem updateData_ok_invariant (st : Storage) (userID : UUID)
    (req : UpdateDataReq) (now : Time) (st' : Storage) (ret : DataEntry)
    (v : Int)
    (hnodup : (st.entries.map (·.id)).Nodup)
    (hhas : ∃ r ∈ st.entries, r.id = req.id ∧ r.userID = userID ∧
      r.version = v)
    (h : updateData st userID req now = .ok (st', ret)) :
    (st'.entries.map (·.id)).Nodup ∧
    ∃ r ∈ st'.entries, r.id = req.id ∧ r.userID = userID ∧
      r.version = v + 1 := by
  unfold updateData at h
  split at h
  · exact absurd h (by simp)
  · rename_i entry hget
    split at h
    · exact absurd h (by simp)
    · rename_i st2 ret2 hupd
      simp only [HandlerResult.ok.injEq, Prod.mk.injEq] at h
      obtain ⟨h1, -⟩ := h
      subst h1
      obtain ⟨hmem0, hid0, huid0⟩ := getDataEntry_ok_mem _ _ _ _ hget
      obtain ⟨hmap, ⟨rm, hrmem, hrmm⟩, -⟩ := updateDataEntry_ok_shape _ _ _ _ _ hupd
      have hrmm' := hrmm
      simp only [matchesUpdate, decide_eq_true_eq] at hrmm'
      obtain ⟨hrm1, hrm2, hrm3⟩ := hrmm'
      obtain ⟨r0, hr0, hr0id, hr0uid, hr0v⟩ := hhas
      have hrmid : rm.id = req.id := by
        rw [hrm1]
        exact hid0
      have heq : rm = r0 :=
        List.inj_on_of_nodup_map hnodup hrmem hr0 (by rw [hrmid, hr0id])
      have hv : req.version = v := by
        rw [← hr0v, ← heq]
        exact hrm3.symm
      constructor
      · rw [hmap, map_upd_ids]
        exact hnodup
      · refine ⟨updRow now { entry with
          name := req.name
          description := req.description
          encryptedData := req.encryptedData
          metadata := req.metadata
          version := req.version } rm, ?_, ?_, ?_, ?_⟩
        · rw [hmap]
          exact List.mem_map.mpr ⟨rm, hrmem, by rw [if_pos hrmm]⟩
        · exact hrmid
        · show rm.userID = userID
          rw [hrm2]
          exact huid0
        · show rm.version + 1 = v + 1
          rw [hrm3, hv]

/-- A sequence of `k` successful owner updates advances the stored version
by exactly `k`, one per update. -/
theorem runUpdates_invariant (userID reqId : UUID) :
    ∀ (reqs : List (UpdateDataReq × Time)) (st st' : Storage) (v : Int),
      (st.entries.map (·.id)).Nodup →
      (∀ rq ∈ reqs, rq.1.id = reqId) →
      (∃ r ∈ st.entries, r.id = reqId ∧ r.userID = userID ∧ r.version = v) →
      runUpdates userID st reqs = some st' →
      (st'.entries.map (·.id)).Nodup ∧
      ∃ r ∈ st'.entries, r.id = reqId ∧ r.userID = userID ∧
        r.version = v + reqs.length := by
  intro reqs
  induction reqs with
  | nil =>
    intro st st' v hnd hall hhas hrun
    simp only [runUpdates, Option.some.injEq] at hrun
    subst hrun
    simpa using ⟨hnd, hhas⟩
  | cons head tail ih =>
    obtain ⟨req, now⟩ := head
    intro st st' v hnd hall hhas hrun
    unfold runUpdates at hrun
    split at hrun
    · exact absurd hrun (by simp)
    · rename_i st1 ret1 hstep
      have hreqid : req.id = reqId := hall (req, now) (by simp)
      obtain ⟨hnd1, hhas1⟩ := updateData_ok_invariant st userID req now st1
        ret1 v hnd (by rw [hreqid]; exact hhas) hstep
      rw [hreqid] at hhas1
      obtain ⟨hndf, r, hrmem, hrid, hruid, hrv⟩ :=
        ih st1 st' (v + 1) hnd1
          (fun rq hrq => hall rq (List.mem_cons_of_mem _ hrq)) hhas1 hrun
      refine ⟨hndf, r, hrmem, hrid, hruid, ?_⟩
      rw [hrv]
      simp only [List.length_cons]
      push_cast
      ring

/-- C1: (1) after any sequence of `k` successful updates by the owner on
one entry, every stored row for that `(id, owner)` carries
`initial version + k` — each successful update increments the version by
exactly one; (2) an update whose `expectedVersion` differs from the stored
version of the `(id, owner)` row matches no row, so the UPDATE affects
zero rows and the call returns the version-mismatch error — the
transaction leaves every stored field unchanged (an `Except.error` result
carries no new state; the caller keeps the pre-call store, which is the
SQL rollback). -/
theorem update_version_arithmetic :
    (∀ (userID reqId : UUID) (reqs : List (UpdateDataReq × Time))
        (st st' : Storage) (v : Int),
      (st.entries.map (·.id)).Nodup →
      (∀ rq ∈ reqs, rq.1.id = reqId) →
      (∃ r ∈ st.entries, r.id = reqId ∧ r.userID = userID ∧ r.version = v) →
      runUpdates userID st reqs = some st' →
      ∀ r ∈ st'.entries, r.id = reqId → r.userID = userID →
        r.version = v + reqs.length) ∧
    (∀ (st : Storage) (now : Time) (e : DataEntry),
      (∀ r ∈ st.entries, r.id = e.id → r.userID = e.userID →
        r.version ≠ e.version) →
      updateDataEntry st now e =
        .error "data entry not found or version mismatch") := by
  constructor
  · intro userID reqId reqs st st' v hnd hall hhas hrun r hr hrid hruid
    obtain ⟨hndf, r', hr'm, hr'id, hr'uid, hr'v⟩ :=
      runUpdates_invariant userID reqId reqs st st' v hnd hall hhas hrun
    have heq : r = r' :=
      List.inj_on_of_nodup_map hndf hr hr'm (by rw [hrid, hr'id])
    rw [heq, hr'v]
  · intro st now e hno
    have hnil : st.entries.filter (fun r => matchesUpdate e r) = [] := by
      rw [List.filter_eq_nil_iff]
      intro r hr
      simp only [matchesUpdate, decide_eq_true_eq]
      rintro ⟨h1, h2, h3⟩
      exact hno r hr h1 h2 h3
    unfold updateDataEntry
    rw [if_pos (by rw [hnil]; rfl)]

/-- C1 witness: two successful updates (expectedVersion 1 then 2) advance
entry 1 of owner 7 from version 1 to version 3, and an update with a
mismatching expectedVersion (9) against that store fails with the
version-mismatch error. -/
theorem update_version_arithmetic_witness :
    (∀ r ∈ ({ entries := [{ id := 1, userID := 7, type := DataType.text,
                            name := "c", description := "",
                            encryptedData := [3], metadata := "",
                            createdAt := 0, updatedAt := 20, version := 3 }],
              deleted := [] } : Storage).entries,
      r.id = 1 → r.userID = 7 → r.version = 3) ∧
    updateDataEntry
      { entries := [{ id := 1, userID := 7, type := DataType.text,
                      name := "c", description := "", encryptedData := [3],
                      metadata := "", createdAt := 0, updatedAt := 20,
                      version := 3 }],
        deleted := [] } 30
      { id := 1, userID := 7, type := DataType.text, name := "d",
        description := "", encryptedData := [4], metadata := "",
        createdAt := 0, updatedAt := 0, version := 9 } =
      .error "data entry not found or version mismatch" := by
  constructor
  · intro r hr h1 h2
    have h := update_version_arithmetic.1 7 1
      [({ id := 1, name := "b", description := "", encryptedData := [2],
          metadata := "", version := 1 }, 10),
       ({ id := 1, name := "c", description := "", encryptedData := [3],
          metadata := "", version := 2 }, 20)]
      { entries := [{ id := 1, userID := 7, type := .text, name := "a",
                      description := "", encryptedData := [1], metadata := "",
                      createdAt := 0, updatedAt := 0, version := 1 }],
        deleted := [] }
      { entries := [{ id := 1, userID := 7, type := DataType.text,
                      name := "c", description := "", encryptedData := [3],
                      metadata := "", createdAt := 0, updatedAt := 20,
                      version := 3 }],
        deleted := [] }
      1 (by decide) (by decide) (by decide) (by decide) r hr h1 h2
    simpa using h
  · exact update_version_arithmetic.2 _ 30 _ (by decide)

end GophKeeper
